import Mathlib

/-!
Verification of the SIF indexed-section loader (`SIFLoader`) from
`src/nxengine-1.0.0.4/sdl/video/SDL_video.c`.

The loader is modelled shallowly: a file is a byte list (`List Nat`, each
element a byte value), an open `FILE *` handle is `Option (List Nat)`
(`none` = no open handle, `some f` = a handle onto file contents `f`),
and C sequential reads become indexed reads at an explicit position.
`fgetc` past end-of-file yields `-1`, as in C.
-/

namespace SIF

/-- The expected magic constant: the C multi-character literal 'SIF2',
which evaluates to 0x53494632. -/
def SIF_MAGICK : Int := 0x53494632

/-- Read one byte at position `pos`; `-1` models EOF, as `fgetc` in C. -/
def fgetc (f : List Nat) (pos : Nat) : Int :=
  match f.get? pos with
  | some b => (b : Int)
  | none => -1

/-- Modelled from the spec: `fgetl` is repository code not present under
`src/`; the spec describes the field it reads as a "4-byte little-endian"
quantity, so `fgetl` reads four consecutive bytes, least significant
first. -/
def fgetl (f : List Nat) (pos : Nat) : Int :=
  fgetc f pos + 256 * fgetc f (pos + 1) + 65536 * fgetc f (pos + 2)
    + 16777216 * fgetc f (pos + 3)

/-- One entry of the loader index: `SIFIndexEntry` with fields
`type`, `foffset`, `length` (as read by `fgetc`/`fgetl`, hence `Int`)
and `data` (`none` models a NULL cached-data pointer, `some bytes`
models an allocated cache buffer holding `bytes`). -/
structure SIFIndexEntry where
  type : Int
  foffset : Int
  length : Int
  data : Option (List Nat)
deriving Repr, DecidableEq

/-- The loader state: the open file handle `fFP` (`none` = NULL) and the
index `fIndex`, modelled from the spec as an ordered sequence since the
`BList` container class is repository code not present under `src/`
(`ItemAt i` = `get? i`, `AddItem` = append, `MakeEmpty` = `[]`). -/
structure SIFLoader where
  fFP : Option (List Nat)
  fIndex : List SIFIndexEntry
deriving Repr, DecidableEq

/-- The error taxonomy of the spec; the C code reports these as `NX_ERR`
log messages next to the corresponding early return. -/
inductive SIFError where
  | IOError
  | FormatError
  | StateError
deriving Repr, DecidableEq

/-- `SIFLoader::ClearIndex`: frees every cached buffer, deletes every
entry, and makes the index empty; `fFP` is untouched. -/
def ClearIndex (s : SIFLoader) : SIFLoader :=
  { s with fIndex := [] }

/-- `SIFLoader::CloseFile`: `ClearIndex`, then close the handle. -/
def CloseFile (_s : SIFLoader) : SIFLoader :=
  { fFP := none, fIndex := [] }

/-- One iteration of the `LoadHeader` read loop: 1 byte `type`,
4-byte little-endian `foffset`, 4-byte little-endian `length`,
`data = NULL`; the nine bytes start at `pos`. -/
def readEntry (f : List Nat) (pos : Nat) : SIFIndexEntry :=
  { type := fgetc f pos
    foffset := fgetl f (pos + 1)
    length := fgetl f (pos + 5)
    data := none }

/-- The `LoadHeader` read loop: `n` consecutive 9-byte entries starting
at position `pos`, appended to the index in file order. -/
def readEntriesFrom (f : List Nat) (pos : Nat) : Nat → List SIFIndexEntry
  | 0 => []
  | Nat.succ m => readEntry f pos :: readEntriesFrom f (pos + 9) m

/-- `SIFLoader::LoadHeader`: clears the index, closes any previously
open handle, opens `file` (`none` models `fopen` failure). On open
failure it returns `1` (`true`) with `fFP = NULL`; on magic mismatch it
returns `1` (`true`) with the fresh handle still stored in `fFP`; on
success it reads the count byte at position 4 and then the descriptor
loop, returns `0` (`false`), and leaves the handle open. The
`Option SIFError` component records which `NX_ERR` class was reported. -/
def LoadHeader (_s : SIFLoader) (file : Option (List Nat)) :
    SIFLoader × Bool × Option SIFError :=
  match file with
  | none => (⟨none, []⟩, true, some SIFError.IOError)
  | some f =>
    if fgetl f 0 = SIF_MAGICK then
      (⟨some f, readEntriesFrom f 5 (fgetc f 4).toNat⟩, false, none)
    else
      (⟨some f, []⟩, true, some SIFError.FormatError)

/-- The `fseek`/`fread` pair of `FindSection`: the bytes of `f` starting
at offset `off`, at most `len` of them (a read past end-of-file returns
only the available bytes). -/
def readBytes (f : List Nat) (off len : Int) : List Nat :=
  (f.drop off.toNat).take len.toNat

/-- The outcome of one `FindSection` call, apart from the index:
`buf` is the returned pointer (`none` = NULL), `lengthOut` is the value
written through `length_out` (`none` = no write, i.e. `length_out` was
NULL), `err` the reported error class, and `reads` counts `fread`
calls, for read-count instrumentation. -/
structure FindResult where
  buf : Option (List Nat)
  lengthOut : Option Int
  err : Option SIFError
  reads : Nat
deriving Repr, DecidableEq

/-- The scan loop of `SIFLoader::FindSection` over the index, with the
handle `h`; `lp` tells whether the `length_out` pointer is non-NULL.
Returns the updated index together with the call outcome. -/
def findSectionAux (h : Option (List Nat)) (t : Int) (lp : Bool) :
    List SIFIndexEntry → List SIFIndexEntry × FindResult
  | [] => ([], ⟨none, if lp then some 0 else none, none, 0⟩)
  | e :: rest =>
    if e.type = t then
      match e.data with
      | some d => (e :: rest, ⟨some d, if lp then some e.length else none, none, 0⟩)
      | none =>
        match h with
        | none =>
          (e :: rest, ⟨none, if lp then some 0 else none, some SIFError.StateError, 0⟩)
        | some f =>
          let d := readBytes f e.foffset e.length
          ({ e with data := some d } :: rest,
            ⟨some d, if lp then some e.length else none, none, 1⟩)
    else
      let r := findSectionAux h t lp rest
      (e :: r.1, r.2)

/-- `SIFLoader::FindSection(type, length_out)`: scan the index for the
first entry of type `t`; load and cache its section on first access. -/
def FindSection (s : SIFLoader) (t : Int) (lp : Bool) : SIFLoader × FindResult :=
  let r := findSectionAux s.fFP t lp s.fIndex
  ({ s with fIndex := r.1 }, r.2)

/-- The first index entry whose type matches `t`, in index order. -/
def firstMatch (idx : List SIFIndexEntry) (t : Int) : Option SIFIndexEntry :=
  idx.find? (fun e => e.type = t)

/-- Follows the spec's words: a "4-byte little-endian" field of the file
format, built directly from the raw bytes at positions `p..p+3`
(least-significant byte first). -/
def specLE (f : List Nat) (p : Nat) : Int :=
  (f.getD p 0 : Int) + 256 * (f.getD (p + 1) 0 : Int)
    + 65536 * (f.getD (p + 2) 0 : Int) + 16777216 * (f.getD (p + 3) 0 : Int)

/-- Follows the spec's words: descriptor number `i` of the file format,
"each 9 bytes: 1 byte type, 4 bytes file offset, 4 bytes length",
located after the 4 magic bytes and the count byte, with no cached
data. -/
def specDescriptor (f : List Nat) (i : Nat) : SIFIndexEntry :=
  { type := (f.getD (5 + 9 * i) 0 : Int)
    foffset := specLE f (6 + 9 * i)
    length := specLE f (10 + 9 * i)
    data := none }

/-!
Helper lemmas about the embedded operations.
-/

/-- Within bounds, `fgetc` returns the byte at that position. -/
theorem fgetc_eq_getD (f : List Nat) (p : Nat) (h : p < f.length) :
    fgetc f p = (f.getD p 0 : Int) := by
  rw [fgetc, List.get?_eq_get h]
  simp [List.getD_eq_getElem?_getD, List.getElem?_eq_getElem h]

/-- Within bounds, `fgetl` agrees with the spec-side little-endian
field. -/
theorem fgetl_eq_specLE (f : List Nat) (p : Nat) (h : p + 4 ≤ f.length) :
    fgetl f p = specLE f p := by
  rw [fgetl, specLE, fgetc_eq_getD f p (by omega), fgetc_eq_getD f (p + 1) (by omega),
    fgetc_eq_getD f (p + 2) (by omega), fgetc_eq_getD f (p + 3) (by omega)]

/-- The `LoadHeader` loop produces exactly `n` entries. -/
theorem readEntriesFrom_length (f : List Nat) :
    ∀ (n pos : Nat), (readEntriesFrom f pos n).length = n := by
  intro n
  induction n with
  | zero => intro pos; rfl
  | succ m ih => intro pos; simp [readEntriesFrom, ih]

/-- Entry `i` of the `LoadHeader` loop output starts 9·i bytes after the
loop's starting position. -/
theorem readEntriesFrom_get? (f : List Nat) :
    ∀ (n pos i : Nat), i < n →
      (readEntriesFrom f pos n).get? i = some (readEntry f (pos + 9 * i)) := by
  intro n
  induction n with
  | zero => intro pos i hi; omega
  | succ m ih =>
    intro pos i hi
    cases i with
    | zero => simp [readEntriesFrom]
    | succ j =>
      have := ih (pos + 9) j (by omega)
      simp only [readEntriesFrom, List.get?_cons_succ, this]
      have harith : pos + 9 + 9 * j = pos + 9 * (j + 1) := by ring
      rw [harith]

/-- Every entry produced by the `LoadHeader` loop has no cached data. -/
theorem readEntriesFrom_data (f : List Nat) :
    ∀ (n pos : Nat) (e : SIFIndexEntry), e ∈ readEntriesFrom f pos n → e.data = none := by
  intro n
  induction n with
  | zero => intro pos e he; simp [readEntriesFrom] at he
  | succ m ih =>
    intro pos e he
    simp only [readEntriesFrom, List.mem_cons] at he
    rcases he with he | he
    · rw [he]; rfl
    · exact ih (pos + 9) e he

/-- When no entry matches, the scan loop reaches the end of the index:
the index is unchanged and the result is the "not found" outcome. -/
theorem findSectionAux_notFound (fp : Option (List Nat)) (t : Int) (lp : Bool) :
    ∀ idx : List SIFIndexEntry, firstMatch idx t = none →
      findSectionAux fp t lp idx = (idx, ⟨none, if lp then some 0 else none, none, 0⟩) := by
  intro idx
  induction idx with
  | nil => intro _; rfl
  | cons a rest ih =>
    intro hf
    by_cases ha : a.type = t
    · rw [firstMatch, List.find?_cons_of_pos _ (by simpa using ha)] at hf
      exact Option.noConfusion hf
    · rw [firstMatch, List.find?_cons_of_neg _ (by simpa using ha)] at hf
      simp [findSectionAux, ha, ih hf]

/-- The outcome of the scan loop depends only on the first matching
entry: entries before it do not match and entries after it are never
inspected. -/
theorem findSectionAux_first (fp : Option (List Nat)) (t : Int) (lp : Bool) :
    ∀ (idx : List SIFIndexEntry) (e : SIFIndexEntry), firstMatch idx t = some e →
      (findSectionAux fp t lp idx).2 = (findSectionAux fp t lp [e]).2 := by
  intro idx
  induction idx with
  | nil => intro e hf; exact Option.noConfusion hf
  | cons a rest ih =>
    intro e hf
    by_cases ha : a.type = t
    · rw [firstMatch, List.find?_cons_of_pos _ (by simpa using ha)] at hf
      obtain rfl : a = e := by injection hf
      cases hd : a.data with
      | some d => simp [findSectionAux, ha, hd]
      | none => cases fp <;> simp [findSectionAux, ha, hd]
    · rw [firstMatch, List.find?_cons_of_neg _ (by simpa using ha)] at hf
      simp only [findSectionAux, if_neg ha]
      exact ih e hf

/-- With no open handle, a scan that lands on an uncached first match
fails with a state error and leaves the index unchanged. -/
theorem findSectionAux_stateError (t : Int) (lp : Bool) :
    ∀ (idx : List SIFIndexEntry) (e : SIFIndexEntry), firstMatch idx t = some e →
      e.data = none →
      findSectionAux none t lp idx =
        (idx, ⟨none, if lp then some 0 else none, some SIFError.StateError, 0⟩) := by
  intro idx
  induction idx with
  | nil => intro e hf; exact fun _ => Option.noConfusion hf
  | cons a rest ih =>
    intro e hf hd
    by_cases ha : a.type = t
    · rw [firstMatch, List.find?_cons_of_pos _ (by simpa using ha)] at hf
      obtain rfl : a = e := by injection hf
      simp [findSectionAux, ha, hd]
    · rw [firstMatch, List.find?_cons_of_neg _ (by simpa using ha)] at hf
      simp [findSectionAux, ha, ih e hf hd]

/-- A single scan performs at most one `fread`. -/
theorem findSectionAux_reads_le_one (fp : Option (List Nat)) (t : Int) (lp : Bool) :
    ∀ idx : List SIFIndexEntry, (findSectionAux fp t lp idx).2.reads ≤ 1 := by
  intro idx
  induction idx with
  | nil => exact Nat.zero_le 1
  | cons a rest ih =>
    by_cases ha : a.type = t
    · cases hd : a.data with
      | some d => simp [findSectionAux, ha, hd]
      | none => cases fp <;> simp [findSectionAux, ha, hd]
    · simpa [findSectionAux, ha] using ih

/-- Scanning a second time for the same type returns the same index and
the same outcome, except that no `fread` occurs: the first scan left the
first matching entry cached (or the scan fails identically). -/
theorem findSectionAux_again (fp : Option (List Nat)) (t : Int) (lp : Bool) :
    ∀ idx : List SIFIndexEntry,
      findSectionAux fp t lp (findSectionAux fp t lp idx).1 =
        ((findSectionAux fp t lp idx).1,
          { (findSectionAux fp t lp idx).2 with reads := 0 }) := by
  intro idx
  induction idx with
  | nil => rfl
  | cons a rest ih =>
    by_cases ha : a.type = t
    · cases hd : a.data with
      | some d => simp [findSectionAux, ha, hd]
      | none =>
        cases fp with
        | none => simp [findSectionAux, ha, hd]
        | some f => simp [findSectionAux, ha, hd]
    · simp only [findSectionAux, if_neg ha]
      simp only [findSectionAux, if_neg ha] at ih ⊢
      rw [ih]

/-- A scan with a NULL `length_out` differs from one with a valid
pointer only in that nothing is written through the pointer. -/
theorem findSectionAux_nullOut (fp : Option (List Nat)) (t : Int) :
    ∀ idx : List SIFIndexEntry,
      findSectionAux fp t false idx =
        ((findSectionAux fp t true idx).1,
          { (findSectionAux fp t true idx).2 with lengthOut := none }) := by
  intro idx
  induction idx with
  | nil => rfl
  | cons a rest ih =>
    by_cases ha : a.type = t
    · cases hd : a.data with
      | some d => simp [findSectionAux, ha, hd]
      | none => cases fp <;> simp [findSectionAux, ha, hd]
    · simp only [findSectionAux, if_neg ha]
      simp only [findSectionAux, if_neg ha] at ih ⊢
      rw [ih]

/-- In-range reads return exactly the requested number of bytes. -/
theorem readBytes_length (f : List Nat) (off len : Int)
    (hb : off.toNat + len.toNat ≤ f.length) :
    (readBytes f off len).length = len.toNat := by
  simp only [readBytes, List.length_take, List.length_drop]
  omega

/-- Byte `j` of an in-range read is the file byte at `off + j`. -/
theorem readBytes_get? (f : List Nat) (off len : Int) (j : Nat)
    (hj : j < len.toNat) :
    (readBytes f off len).get? j = f.get? (off.toNat + j) := by
  rw [readBytes, List.get?_take hj, List.get?_drop]

/-!
Claim theorems.
-/

/-- C1, counterexample: the claim says every failed `LoadHeader` leaves
no open file handle. On the openable file `[0,0,0,0]` the magic check
fails, `LoadHeader` returns the failure result, the index is empty, yet
the freshly opened handle is still stored in `fFP`. -/
theorem C1_counterexample_magic_mismatch_keeps_handle :
    (LoadHeader ⟨none, []⟩ (some [0, 0, 0, 0])).2.1 = true ∧
      (LoadHeader ⟨none, []⟩ (some [0, 0, 0, 0])).1.fIndex = [] ∧
      (LoadHeader ⟨none, []⟩ (some [0, 0, 0, 0])).1.fFP ≠ none := by
  decide

/-- C1, amended: every failed `LoadHeader` leaves the index empty, and
leaves `fFP` equal to the outcome of the `fopen` attempt — `none` when
the file could not be opened, but still the open handle when the open
succeeded and only the magic check failed. -/
theorem C1_failed_LoadHeader_state (s : SIFLoader) (file : Option (List Nat))
    (h : (LoadHeader s file).2.1 = true) :
    (LoadHeader s file).1.fIndex = [] ∧ (LoadHeader s file).1.fFP = file := by
  cases file with
  | none => exact ⟨rfl, rfl⟩
  | some f =>
    by_cases hm : fgetl f 0 = SIF_MAGICK
    · simp [LoadHeader, hm] at h
    · simp [LoadHeader, hm]

/-- C1, witness: a concrete failing `LoadHeader` (open failure). -/
theorem C1_failed_LoadHeader_state_witness :
    (LoadHeader ⟨none, []⟩ none).2.1 = true ∧
      ((LoadHeader ⟨none, []⟩ none).1.fIndex = [] ∧
        (LoadHeader ⟨none, []⟩ none).1.fFP = none) :=
  ⟨by decide, C1_failed_LoadHeader_state ⟨none, []⟩ none (by decide)⟩

/-- C4: when the first matching entry is uncached and no handle is
open, `FindSection` reports a state error, returns the NULL buffer with
a 0 written through a non-NULL `length_out`, performs no read, and
leaves the store (including the entry's cache) unchanged. -/
theorem C4_closed_handle_state_error (s : SIFLoader) (t : Int) (lp : Bool)
    (e : SIFIndexEntry) (hfp : s.fFP = none)
    (he : firstMatch s.fIndex t = some e) (hd : e.data = none) :
    FindSection s t lp =
      (s, ⟨none, if lp then some 0 else none, some SIFError.StateError, 0⟩) := by
  obtain ⟨fp, idx⟩ := s
  obtain rfl : fp = none := hfp
  simp [FindSection, findSectionAux_stateError t lp idx e he hd]

/-- C4, witness: a closed store holding one uncached entry of type 7. -/
theorem C4_closed_handle_state_error_witness :
    FindSection ⟨none, [⟨7, 14, 2, none⟩]⟩ 7 true =
      (⟨none, [⟨7, 14, 2, none⟩]⟩,
        ⟨none, if true then some 0 else none, some SIFError.StateError, 0⟩) :=
  C4_closed_handle_state_error ⟨none, [⟨7, 14, 2, none⟩]⟩ 7 true
    ⟨7, 14, 2, none⟩ rfl (by decide) rfl

/-- C5: when no entry matches `t`, `FindSection` returns the NULL
buffer, writes 0 through a non-NULL `length_out`, reports no error,
performs no read, and leaves the store unchanged. -/
theorem C5_not_found_no_error (s : SIFLoader) (t : Int) (lp : Bool)
    (h : firstMatch s.fIndex t = none) :
    FindSection s t lp = (s, ⟨none, if lp then some 0 else none, none, 0⟩) := by
  simp [FindSection, findSectionAux_notFound s.fFP t lp s.fIndex h]

/-- C5, witness: a store with one entry of type 7, queried for type 3. -/
theorem C5_not_found_no_error_witness :
    FindSection ⟨none, [⟨7, 14, 2, some [1, 2]⟩]⟩ 3 true =
      (⟨none, [⟨7, 14, 2, some [1, 2]⟩]⟩,
        ⟨none, if true then some 0 else none, none, 0⟩) :=
  C5_not_found_no_error ⟨none, [⟨7, 14, 2, some [1, 2]⟩]⟩ 3 true (by decide)

/-- C6: `ClearIndex` empties the index and leaves the handle unchanged,
and any subsequent `FindSection` returns "not found" — NULL buffer, no
error, store unchanged — for every type. -/
theorem C6_ClearIndex_discards_index (s : SIFLoader) (t : Int) (lp : Bool) :
    (ClearIndex s).fFP = s.fFP ∧ (ClearIndex s).fIndex = [] ∧
    (FindSection (ClearIndex s) t lp).2.buf = none ∧
    (FindSection (ClearIndex s) t lp).2.err = none ∧
    (FindSection (ClearIndex s) t lp).1 = ClearIndex s := by
  refine ⟨rfl, rfl, ?_, ?_, ?_⟩ <;> simp [ClearIndex, FindSection, findSectionAux]

/-- C9: `LoadHeader`'s boolean result is inverted relative to
conventional success semantics — it is `true` (the C literal `1`)
exactly on the failure cases (open failure or magic mismatch) and
`false` (the C literal `0`) exactly on success. -/
theorem C9_inverted_boolean_result (s : SIFLoader) (file : Option (List Nat)) :
    ((LoadHeader s file).2.1 = true ↔
      (file = none ∨ ∃ f, file = some f ∧ fgetl f 0 ≠ SIF_MAGICK)) ∧
    ((LoadHeader s file).2.1 = false ↔
      ∃ f, file = some f ∧ fgetl f 0 = SIF_MAGICK) := by
  cases file with
  | none => simp [LoadHeader]
  | some f => by_cases hm : fgetl f 0 = SIF_MAGICK <;> simp [LoadHeader, hm]

/-- When the whole 9-byte descriptor lies within the file, the loop's
entry is exactly the descriptor the format declares. -/
theorem readEntry_eq_specDescriptor (f : List Nat) (i : Nat)
    (h : 14 + 9 * i ≤ f.length) :
    readEntry f (5 + 9 * i) = specDescriptor f i := by
  have e1 : 5 + 9 * i + 1 = 6 + 9 * i := by ring
  have e2 : 5 + 9 * i + 5 = 10 + 9 * i := by ring
  rw [readEntry, specDescriptor, e1, e2, fgetc_eq_getD f (5 + 9 * i) (by omega),
    fgetl_eq_specLE f (6 + 9 * i) (by omega), fgetl_eq_specLE f (10 + 9 * i) (by omega)]

/-- C7: on a file whose first 4 bytes pass the magic check and whose
declared index fits in the file, `LoadHeader` succeeds, leaves the file
handle open, and builds an index of exactly N descriptors (N the count
byte at position 4) in file order, descriptor `i` being the 9 raw bytes
at position 5 + 9·i parsed as 1 byte type, 4-byte little-endian offset
and 4-byte little-endian length, with no cached data. -/
theorem C7_LoadHeader_reads_declared_index (s : SIFLoader) (f : List Nat)
    (hm : fgetl f 0 = SIF_MAGICK)
    (hlen : 5 + 9 * f.getD 4 0 ≤ f.length) :
    (LoadHeader s (some f)).2.1 = false ∧
    (LoadHeader s (some f)).1.fFP = some f ∧
    (LoadHeader s (some f)).1.fIndex.length = f.getD 4 0 ∧
    ∀ i, i < f.getD 4 0 →
      (LoadHeader s (some f)).1.fIndex.get? i = some (specDescriptor f i) := by
  have h4 : (4 : Nat) < f.length := by omega
  have hN : (fgetc f 4).toNat = f.getD 4 0 := by
    rw [fgetc_eq_getD f 4 h4]; omega
  simp only [LoadHeader, if_pos hm]
  refine ⟨by simp, by simp, ?_, ?_⟩
  · rw [readEntriesFrom_length, hN]
  · intro i hi
    rw [readEntriesFrom_get? f (fgetc f 4).toNat 5 i (by omega),
      readEntry_eq_specDescriptor f i (by omega)]

/-- C7, witness: a concrete 16-byte file with magic, one declared
descriptor and its payload. -/
theorem C7_LoadHeader_reads_declared_index_witness :
    (LoadHeader ⟨none, []⟩
        (some [0x32, 0x46, 0x49, 0x53, 1, 7, 14, 0, 0, 0, 2, 0, 0, 0, 0xAA, 0xBB])).2.1
        = false ∧
    (LoadHeader ⟨none, []⟩
        (some [0x32, 0x46, 0x49, 0x53, 1, 7, 14, 0, 0, 0, 2, 0, 0, 0, 0xAA, 0xBB])).1.fFP
        = some [0x32, 0x46, 0x49, 0x53, 1, 7, 14, 0, 0, 0, 2, 0, 0, 0, 0xAA, 0xBB] ∧
    (LoadHeader ⟨none, []⟩
        (some [0x32, 0x46, 0x49, 0x53, 1, 7, 14, 0, 0, 0, 2, 0, 0, 0, 0xAA, 0xBB])).1.fIndex.length
        = [0x32, 0x46, 0x49, 0x53, 1, 7, 14, 0, 0, 0, 2, 0, 0, 0, 0xAA, 0xBB].getD 4 0 ∧
    ∀ i, i < [0x32, 0x46, 0x49, 0x53, 1, 7, 14, 0, 0, 0, 2, 0, 0, 0, 0xAA, 0xBB].getD 4 0 →
      (LoadHeader ⟨none, []⟩
          (some [0x32, 0x46, 0x49, 0x53, 1, 7, 14, 0, 0, 0, 2, 0, 0, 0, 0xAA, 0xBB])).1.fIndex.get? i
        = some (specDescriptor [0x32, 0x46, 0x49, 0x53, 1, 7, 14, 0, 0, 0, 2, 0, 0, 0, 0xAA, 0xBB] i) :=
  C7_LoadHeader_reads_declared_index ⟨none, []⟩
    [0x32, 0x46, 0x49, 0x53, 1, 7, 14, 0, 0, 0, 2, 0, 0, 0, 0xAA, 0xBB]
    (by decide) (by decide)

/-- C2: after a successful `LoadHeader` on file `f`, looking up any
type declared in the index returns a buffer of exactly the declared
length whose bytes are the file's bytes starting at the declared
offset (the declared entry being the first match for its type, and its
declared range lying within the file). -/
theorem C2_FindSection_returns_declared_bytes (s : SIFLoader) (f : List Nat)
    (t : Int) (e : SIFIndexEntry) (lp : Bool)
    (hm : fgetl f 0 = SIF_MAGICK)
    (he : firstMatch (LoadHeader s (some f)).1.fIndex t = some e)
    (ho : 0 ≤ e.foffset) (hl : 0 ≤ e.length)
    (hb : e.foffset + e.length ≤ (f.length : Int)) :
    (LoadHeader s (some f)).2.1 = false ∧
    ∃ b, (FindSection (LoadHeader s (some f)).1 t lp).2.buf = some b ∧
      b.length = e.length.toNat ∧
      (∀ j, j < e.length.toNat → b.get? j = f.get? (e.foffset.toNat + j)) ∧
      (FindSection (LoadHeader s (some f)).1 t lp).2.lengthOut =
        (if lp then some e.length else none) := by
  have hL : (LoadHeader s (some f)).1 =
      ⟨some f, readEntriesFrom f 5 (fgetc f 4).toNat⟩ := by
    simp [LoadHeader, hm]
  rw [hL] at he ⊢
  have he' : firstMatch (readEntriesFrom f 5 (fgetc f 4).toNat) t = some e := he
  have hmem : e ∈ readEntriesFrom f 5 (fgetc f 4).toNat :=
    List.mem_of_find?_eq_some he'
  have hd : e.data = none := readEntriesFrom_data f (fgetc f 4).toNat 5 e hmem
  have ht : e.type = t := by simpa using List.find?_some he'
  have h1 := findSectionAux_first (some f) t lp (readEntriesFrom f 5 (fgetc f 4).toNat) e he'
  have hnat : e.foffset.toNat + e.length.toNat ≤ f.length := by omega
  refine ⟨by simp [LoadHeader, hm], readBytes f e.foffset e.length, ?_, ?_, ?_, ?_⟩
  · simp [FindSection, h1, findSectionAux, ht, hd]
  · exact readBytes_length f e.foffset e.length hnat
  · intro j hj; exact readBytes_get? f e.foffset e.length j hj
  · simp [FindSection, h1, findSectionAux, ht, hd]

/-- C2, witness: the concrete 16-byte file; the type-7 section is the 2
bytes at offset 14. -/
theorem C2_FindSection_returns_declared_bytes_witness :
    (LoadHeader ⟨none, []⟩
        (some [0x32, 0x46, 0x49, 0x53, 1, 7, 14, 0, 0, 0, 2, 0, 0, 0, 0xAA, 0xBB])).2.1
        = false ∧
    ∃ b, (FindSection (LoadHeader ⟨none, []⟩
        (some [0x32, 0x46, 0x49, 0x53, 1, 7, 14, 0, 0, 0, 2, 0, 0, 0, 0xAA, 0xBB])).1
          7 true).2.buf = some b ∧
      b.length = (2 : Int).toNat ∧
      (∀ j, j < (2 : Int).toNat →
        b.get? j = [0x32, 0x46, 0x49, 0x53, 1, 7, 14, 0, 0, 0, 2, 0,
          0, 0, 0xAA, 0xBB].get? ((14 : Int).toNat + j)) ∧
      (FindSection (LoadHeader ⟨none, []⟩
          (some [0x32, 0x46, 0x49, 0x53, 1, 7, 14, 0, 0, 0, 2, 0, 0, 0, 0xAA, 0xBB])).1
            7 true).2.lengthOut = (if true then some (2 : Int) else none) :=
  C2_FindSection_returns_declared_bytes ⟨none, []⟩
    [0x32, 0x46, 0x49, 0x53, 1, 7, 14, 0, 0, 0, 2, 0, 0, 0, 0xAA, 0xBB]
    7 ⟨7, 14, 2, none⟩ true (by decide) (by decide) (by decide) (by decide) (by decide)

/-- C3: `FindSection` is idempotent — a second call for the same type
returns the same buffer and the same store, and the two calls together
perform at most one disk read. -/
theorem C3_FindSection_idempotent (s : SIFLoader) (t : Int) (lp : Bool) :
    (FindSection (FindSection s t lp).1 t lp).2.buf = (FindSection s t lp).2.buf ∧
    (FindSection (FindSection s t lp).1 t lp).1 = (FindSection s t lp).1 ∧
    (FindSection s t lp).2.reads + (FindSection (FindSection s t lp).1 t lp).2.reads ≤ 1 := by
  have ha := findSectionAux_again s.fFP t lp s.fIndex
  have hr := findSectionAux_reads_le_one s.fFP t lp s.fIndex
  simp only [FindSection] at ha hr ⊢
  simp only [ha]
  refine ⟨by simp, by simp, ?_⟩
  simpa using hr

/-- C8: when several descriptors carry the same type tag, lookup is
fully determined by the first matching descriptor: the outcome equals
that of a store holding only it, its cached data is returned as is, and
when uncached its declared range is what gets read. -/
theorem C8_first_match_wins (s : SIFLoader) (t : Int) (lp : Bool) (e : SIFIndexEntry)
    (he : firstMatch s.fIndex t = some e) :
    (FindSection s t lp).2 = (FindSection ⟨s.fFP, [e]⟩ t lp).2 ∧
    (∀ d, e.data = some d → (FindSection s t lp).2.buf = some d) ∧
    (∀ f, s.fFP = some f → e.data = none →
      (FindSection s t lp).2.buf = some (readBytes f e.foffset e.length)) := by
  have he' : s.fIndex.find? (fun x => x.type = t) = some e := he
  have ht : e.type = t := by simpa using List.find?_some he'
  have h1 := findSectionAux_first s.fFP t lp s.fIndex e he'
  refine ⟨by simp [FindSection, h1], ?_, ?_⟩
  · intro d hd
    simp [FindSection, h1, findSectionAux, ht, hd]
  · intro f hf hd
    rw [hf] at h1
    simp [FindSection, h1, findSectionAux, ht, hd, hf]

/-- C8, witness: two descriptors of type 1; lookup returns the first
one's cached data. -/
theorem C8_first_match_wins_witness :
    (FindSection ⟨none, [⟨1, 0, 2, some [9, 9]⟩, ⟨1, 5, 3, some [1, 2, 3]⟩]⟩ 1 true).2 =
      (FindSection ⟨none, [⟨1, 0, 2, some [9, 9]⟩]⟩ 1 true).2 ∧
    (∀ d, (⟨1, 0, 2, some [9, 9]⟩ : SIFIndexEntry).data = some d →
      (FindSection ⟨none, [⟨1, 0, 2, some [9, 9]⟩, ⟨1, 5, 3, some [1, 2, 3]⟩]⟩ 1 true).2.buf
        = some d) ∧
    (∀ f, (⟨none, [⟨1, 0, 2, some [9, 9]⟩, ⟨1, 5, 3, some [1, 2, 3]⟩]⟩ : SIFLoader).fFP = some f →
      (⟨1, 0, 2, some [9, 9]⟩ : SIFIndexEntry).data = none →
      (FindSection ⟨none, [⟨1, 0, 2, some [9, 9]⟩, ⟨1, 5, 3, some [1, 2, 3]⟩]⟩ 1 true).2.buf
        = some (readBytes f 0 2)) :=
  C8_first_match_wins ⟨none, [⟨1, 0, 2, some [9, 9]⟩, ⟨1, 5, 3, some [1, 2, 3]⟩]⟩
    1 true ⟨1, 0, 2, some [9, 9]⟩ (by decide)

/-- C10: a NULL `length_out` is tolerated — the call writes nothing
through the pointer and yields the same buffer, error report, read
count and final store as a call with a valid pointer, in the found,
not-found and closed-handle cases alike. -/
theorem C10_null_length_out_tolerated (s : SIFLoader) (t : Int) :
    (FindSection s t false).1 = (FindSection s t true).1 ∧
    (FindSection s t false).2.buf = (FindSection s t true).2.buf ∧
    (FindSection s t false).2.err = (FindSection s t true).2.err ∧
    (FindSection s t false).2.reads = (FindSection s t true).2.reads ∧
    (FindSection s t false).2.lengthOut = none := by
  have h := findSectionAux_nullOut s.fFP t s.fIndex
  simp only [FindSection, h]
  simp

end SIF
